import Mathlib

/-!
# Verification of the ml-physics-notebooks data-cleaning and diagnostic pipelines

Shallow embedding of the three notebooks of the repository
(`habitable_planets.ipynb`, `boosting_decisions.ipynb`, `regularization.ipynb`)
and proofs about the hand-written logic they contain: missing-value cleaning
(`dropna`, `fillna(0)`), z-score outlier rejection, index-aligned target
restriction, the staged-prediction score loop, the manual Ridge alpha search,
and the static execution profile (parallelism flags, randomness seeding,
error propagation, file effects).

Numeric table cells are modelled as exact rationals; a missing value (pandas
`NaN`) is modelled as `Option.none`.  The scipy z-score comparison
`np.abs(stats.zscore(x)) < 5` is embedded in cleared-denominator form
`(x - mean)^2 < 25 * popVar`, which agrees with the floating-point comparison
in exact arithmetic: for positive variance it is equivalent to
`|x - mean| / sqrt(popVar) < 5` (proved below in `zscoreQ_iff_real`), and for
zero variance both the float mask (`NaN < 5` is `False`) and the embedded
comparison (`0 < 0` is `False`) reject the row.
-/

namespace MLPhys

/-- A table cell: `none` models a pandas `NaN`, `some q` a numeric value. -/
abbrev Cell := Option ℚ

/-- A data-frame row: the list of cell values of the feature columns. -/
abbrev Row := List Cell

/-- A pandas `DataFrame`: rows paired with their pandas index label.
The label records which row of the original dataset an entry comes from. -/
abbrev DataFrame := List (Nat × Row)

/-- A numeric (NaN-free) data frame, as obtained after cleaning. -/
abbrev NumTable := List (Nat × List ℚ)

/-- A pandas `Series` (the target vector): values paired with index labels. -/
abbrev Series := List (Nat × ℚ)

/-- `final_features.dropna(axis = 0)`: drop every row holding at least one
`NaN` in any column (`habitable_planets.ipynb`). -/
def dropna (df : DataFrame) : DataFrame :=
  df.filter fun p => p.2.all fun c => c.isSome

/-- `features.fillna(0)`: replace every `NaN` cell by `0`
(`habitable_planets.ipynb`, particle-ID part). -/
def fillna0 (df : DataFrame) : DataFrame :=
  df.map fun p => (p.1, p.2.map fun c => some (c.getD 0))

/-- A data frame has no missing values when every cell of every row is
numeric (no `NaN`). -/
def noMissing (df : DataFrame) : Bool :=
  df.all fun p => p.2.all fun c => c.isSome

/-- View a NaN-free frame as a numeric table (a `none` cell, which cleaning
has already removed, reads as `0`). -/
def toNum (df : DataFrame) : NumTable :=
  df.map fun p => (p.1, p.2.map fun c => c.getD 0)

/-- Arithmetic mean of a column, as computed by `numpy` / `scipy`. -/
def mean (xs : List ℚ) : ℚ :=
  xs.sum / xs.length

/-- Population variance (`ddof = 0`), the default of `stats.zscore`. -/
def popVar (xs : List ℚ) : ℚ :=
  ((xs.map fun x => (x - mean xs) ^ 2).sum) / xs.length

/-- Values of column `j` of a numeric table, in row order
(`final_features.iloc[:, j]`). -/
def colVals (df : NumTable) (j : Nat) : List ℚ :=
  df.map fun p => p.2.getD j 0

/-- The z-score mask for one cell of column `xs`: the exact-arithmetic form
of `np.abs(stats.zscore(...)) < 5` for that cell.  For `popVar xs > 0` this
is `|x - mean| / sqrt(popVar) < 5`; for `popVar xs = 0` scipy's z-score is
`NaN` and the float comparison is `False`, and so is `0 < 0` here. -/
def zKeepCell (xs : List ℚ) (x : ℚ) : Bool :=
  decide ((x - mean xs) ^ 2 < 25 * popVar xs)

/-- The row mask `(np.abs(stats.zscore(final_features)) < 5).all(axis=1)`,
with the column statistics taken from the whole table `df`. -/
def rowMask (df : NumTable) (r : List ℚ) : Bool :=
  (List.range r.length).all fun j => zKeepCell (colVals df j) (r.getD j 0)

/-- `final_features = final_features[(np.abs(stats.zscore(final_features)) < 5).all(axis=1)]`
(`habitable_planets.ipynb`): keep the rows whose mask is true, preserving
order and index labels. -/
def zscoreFilter (df : NumTable) : NumTable :=
  df.filter fun p => rowMask df p.2

/-- `targets[final_features.index]`: label-based selection of a series at a
list of index labels, in the order of the labels.  `find?` returns the entry
carrying the label (index labels are unique in the notebook: they descend
from the `RangeIndex` of `read_csv`). -/
def selectByIndex (s : Series) (idx : List Nat) : Series :=
  idx.filterMap fun i => (s.find? fun p => p.1 == i).map fun p => (i, p.2)

/-- `final_features.reset_index(drop=True)`: renumber the rows positionally,
dropping the old index labels. -/
def resetIndexT (df : NumTable) : NumTable :=
  (List.range df.length).zip (df.map Prod.snd)

/-- `targets.reset_index(drop=True)` for the target series. -/
def resetIndexS (s : Series) : Series :=
  (List.range s.length).zip (s.map Prod.snd)

end MLPhys

namespace MLPhys

/-- In exact arithmetic, the cleared-denominator comparison `a ^ 2 < 25 * v`
says exactly that the variance is positive and `|a| / sqrt v < 5` over the
reals — i.e. the absolute z-score is strictly below `5`, with a zero
variance (scipy z-score `NaN`) failing the test. -/
lemma zscoreQ_iff_real (a v : ℚ) :
    a ^ 2 < 25 * v ↔
      0 < v ∧ |(a : ℝ)| / Real.sqrt (v : ℝ) < 5 := by
  constructor
  · intro h
    have hv : 0 < v := by nlinarith [sq_nonneg a]
    have hv' : (0 : ℝ) < (v : ℝ) := by exact_mod_cast hv
    have hs : 0 < Real.sqrt (v : ℝ) := Real.sqrt_pos.mpr hv'
    refine ⟨hv, ?_⟩
    rw [div_lt_iff₀ hs]
    have h25 : ((a : ℝ)) ^ 2 < (5 * Real.sqrt (v : ℝ)) ^ 2 := by
      rw [mul_pow, Real.sq_sqrt hv'.le]
      exact_mod_cast h
    exact abs_lt_of_sq_lt_sq h25 (by positivity)
  · rintro ⟨hv, hlt⟩
    have hv' : (0 : ℝ) < (v : ℝ) := by exact_mod_cast hv
    have hs : 0 < Real.sqrt (v : ℝ) := Real.sqrt_pos.mpr hv'
    rw [div_lt_iff₀ hs] at hlt
    have h2 : |(a : ℝ)| ^ 2 < (5 * Real.sqrt (v : ℝ)) ^ 2 :=
      pow_lt_pow_left₀ hlt (abs_nonneg _) two_ne_zero
    rw [sq_abs, mul_pow, Real.sq_sqrt hv'.le] at h2
    exact_mod_cast h2

/-- The row mask is true exactly when every feature column of the row passes
the (cleared-denominator) z-score comparison. -/
lemma rowMask_iff (df : NumTable) (r : List ℚ) :
    rowMask df r = true ↔ ∀ j < r.length,
      (r.getD j 0 - mean (colVals df j)) ^ 2 < 25 * popVar (colVals df j) := by
  simp [rowMask, zKeepCell, List.all_eq_true, List.mem_range]

/-- Label-based selection at a list of labels that all occur in the series
returns exactly that list of labels. -/
lemma selectByIndex_map_fst (tgs : Series) :
    ∀ idx : List Nat, (∀ i ∈ idx, i ∈ tgs.map Prod.fst) →
      (selectByIndex tgs idx).map Prod.fst = idx
  | [], _ => rfl
  | i :: rest, h => by
    have hi : i ∈ tgs.map Prod.fst := h i (List.mem_cons_self i rest)
    obtain ⟨q, hq, hq1⟩ := List.mem_map.mp hi
    have hsome : (tgs.find? fun p => p.1 == i).isSome := by
      rw [List.find?_isSome]
      exact ⟨q, hq, by simp [hq1]⟩
    obtain ⟨r, hr⟩ := Option.isSome_iff_exists.mp hsome
    have hrest := selectByIndex_map_fst tgs rest fun j hj => h j (List.mem_cons_of_mem _ hj)
    simp only [selectByIndex] at hrest ⊢
    simp [List.filterMap_cons, hr, hrest]

/-- C1: a row of the post-dropna feature table survives the outlier-rejection
step `final_features[(np.abs(stats.zscore(final_features)) < 5).all(axis=1)]`
iff, for every feature column, the absolute z-score of its value — computed
from the column mean and population standard deviation of the whole table —
is strictly less than `5` (a zero-variance column makes the z-score `NaN`
and rejects the row, captured by the `0 < popVar` conjunct); and
`targets = targets[final_features.index]` restricts the target vector to
exactly the index set of the surviving feature rows. -/
theorem zscore_filter_and_target_restriction (df : NumTable) (tgs : Series)
    (p : Nat × List ℚ)
    (h : ∀ i ∈ (zscoreFilter df).map Prod.fst, i ∈ tgs.map Prod.fst) :
    (p ∈ zscoreFilter df ↔ p ∈ df ∧ ∀ j < p.2.length,
        0 < popVar (colVals df j) ∧
        |((p.2.getD j 0 - mean (colVals df j) : ℚ) : ℝ)| /
          Real.sqrt ((popVar (colVals df j) : ℚ) : ℝ) < 5) ∧
    (selectByIndex tgs ((zscoreFilter df).map Prod.fst)).map Prod.fst
      = (zscoreFilter df).map Prod.fst := by
  constructor
  · have h1 : p ∈ zscoreFilter df ↔ p ∈ df ∧ rowMask df p.2 = true :=
      List.mem_filter
    rw [h1, rowMask_iff]
    exact and_congr_right fun _ => forall₂_congr fun j _ => zscoreQ_iff_real _ _
  · exact selectByIndex_map_fst tgs _ h

/-- A tiny concrete run of the outlier-rejection step: the two-row,
one-column table `[[0], [1]]` with targets `[5, 7]` on labels `0, 1`. -/
def dfC1 : NumTable := [(0, [0]), (1, [1])]

/-- Targets for the concrete run of the outlier-rejection step. -/
def tgsC1 : Series := [(0, 5), (1, 7)]

/-- Witness: the C1 characterization instantiated on the concrete two-row
table, with its hypothesis discharged by computation. -/
theorem zscore_filter_and_target_restriction_witness :
    (∀ i ∈ (zscoreFilter dfC1).map Prod.fst, i ∈ tgsC1.map Prod.fst) ∧
    ((0, [(0 : ℚ)]) ∈ zscoreFilter dfC1 ↔ (0, [(0 : ℚ)]) ∈ dfC1 ∧
        ∀ j < [(0 : ℚ)].length,
          0 < popVar (colVals dfC1 j) ∧
          |(([(0 : ℚ)].getD j 0 - mean (colVals dfC1 j) : ℚ) : ℝ)| /
            Real.sqrt ((popVar (colVals dfC1 j) : ℚ) : ℝ) < 5) ∧
    (selectByIndex tgsC1 ((zscoreFilter dfC1).map Prod.fst)).map Prod.fst
      = (zscoreFilter dfC1).map Prod.fst :=
  have h : ∀ i ∈ (zscoreFilter dfC1).map Prod.fst, i ∈ tgsC1.map Prod.fst := by
    intro i hi
    obtain ⟨q, hq, rfl⟩ := List.mem_map.mp hi
    have h1 : q ∈ dfC1 := List.filter_subset' dfC1 hq
    have h2 : q.1 ∈ dfC1.map Prod.fst := List.mem_map.mpr ⟨q, h1, rfl⟩
    simpa [tgsC1] using by simpa [dfC1] using h2
  ⟨h, zscore_filter_and_target_restriction dfC1 tgsC1 (0, [0]) h⟩

/-- Label-based selection at labels that all occur in the series is pointwise
described: the `k`-th selected entry carries the `k`-th requested label and is
an entry of the series. -/
lemma selectByIndex_forall₂ (tgs : Series) :
    ∀ idx : List Nat, (∀ i ∈ idx, i ∈ tgs.map Prod.fst) →
      List.Forall₂ (fun i p => p.1 = i ∧ p ∈ tgs) idx (selectByIndex tgs idx)
  | [], _ => List.Forall₂.nil
  | i :: rest, h => by
    have hi : i ∈ tgs.map Prod.fst := h i (List.mem_cons_self i rest)
    obtain ⟨q, hq, hq1⟩ := List.mem_map.mp hi
    have hsome : (tgs.find? fun p => p.1 == i).isSome := by
      rw [List.find?_isSome]
      exact ⟨q, hq, by simp [hq1]⟩
    obtain ⟨r, hr⟩ := Option.isSome_iff_exists.mp hsome
    have hrest := selectByIndex_forall₂ tgs rest fun j hj => h j (List.mem_cons_of_mem _ hj)
    have hri : r.1 = i := by
      have := List.find?_some hr
      simpa using this
    have hrmem : r ∈ tgs := List.mem_of_find?_eq_some hr
    have hstep : selectByIndex tgs (i :: rest) = (i, r.2) :: selectByIndex tgs rest := by
      simp [selectByIndex, List.filterMap_cons, hr]
    rw [hstep]
    refine List.Forall₂.cons ⟨rfl, ?_⟩ hrest
    rw [← hri]
    simpa using hrmem

/-- Positional renumbering: element `i` of `resetIndexT df` is the new label
`i` paired with the row part of element `i` of `df`. -/
lemma resetIndexT_getElem (df : NumTable) (i : Nat) (h : i < (resetIndexT df).length)
    (h2 : i < df.length) :
    (resetIndexT df)[i] = (i, df[i].2) := by
  simp [resetIndexT]

/-- Positional renumbering for series. -/
lemma resetIndexS_getElem (s : Series) (i : Nat) (h : i < (resetIndexS s).length)
    (h2 : i < s.length) :
    (resetIndexS s)[i] = (i, s[i].2) := by
  simp [resetIndexS]

/-- C4: after the z-score filter, the target restriction
`targets[final_features.index]` and both `reset_index(drop=True)` calls, the
feature table and the target vector have the same number of rows; position
`i` carries the new index label `i` on both sides; and the feature row and
target value at position `i` originate from the same row (the same original
index label `k`) of the original dataset. -/
theorem pipeline_row_alignment (df0 : DataFrame) (tgs : Series)
    (h : ∀ i ∈ (zscoreFilter (toNum (dropna df0))).map Prod.fst, i ∈ tgs.map Prod.fst) :
    (resetIndexT (zscoreFilter (toNum (dropna df0)))).length
      = (resetIndexS (selectByIndex tgs
          ((zscoreFilter (toNum (dropna df0))).map Prod.fst))).length ∧
    ∀ i < (resetIndexT (zscoreFilter (toNum (dropna df0)))).length,
      ((resetIndexT (zscoreFilter (toNum (dropna df0)))).getD i (0, [])).1 = i ∧
      ((resetIndexS (selectByIndex tgs
          ((zscoreFilter (toNum (dropna df0))).map Prod.fst))).getD i (0, 0)).1 = i ∧
      ∃ k : Nat,
        (k, ((resetIndexT (zscoreFilter (toNum (dropna df0)))).getD i (0, [])).2)
            ∈ toNum df0 ∧
        (k, ((resetIndexS (selectByIndex tgs
            ((zscoreFilter (toNum (dropna df0))).map Prod.fst))).getD i (0, 0)).2)
            ∈ tgs := by
  set F := zscoreFilter (toNum (dropna df0)) with hF
  set S := selectByIndex tgs (F.map Prod.fst) with hS
  have hsel : List.Forall₂ (fun i p => p.1 = i ∧ p ∈ tgs) (F.map Prod.fst) S :=
    selectByIndex_forall₂ tgs _ h
  have hlenS : S.length = F.length := by
    have := hsel.length_eq
    simpa using this.symm
  have hlenT : (resetIndexT F).length = F.length := by
    simp [resetIndexT]
  have hlenS' : (resetIndexS S).length = S.length := by
    simp [resetIndexS]
  refine ⟨by rw [hlenT, hlenS', hlenS], ?_⟩
  intro i hi
  have hiF : i < F.length := by rwa [hlenT] at hi
  have hiS : i < S.length := by rwa [hlenS]
  have hgetT : (resetIndexT F).getD i (0, []) = (i, F[i].2) := by
    rw [List.getD_eq_getElem _ _ hi]
    exact resetIndexT_getElem F i hi hiF
  have hgetS : (resetIndexS S).getD i (0, 0) = (i, S[i].2) := by
    rw [List.getD_eq_getElem _ _ (by rwa [hlenS'])]
    exact resetIndexS_getElem S i (by rwa [hlenS']) hiS
  obtain ⟨hlen2, hpt⟩ := List.forall₂_iff_get.mp hsel
  have hpoint := hpt i (by simpa using hiF) hiS
  refine ⟨by rw [hgetT], by rw [hgetS], (F[i]).1, ?_, ?_⟩
  · rw [hgetT]
    have hmemF : F[i] ∈ F := List.getElem_mem hiF
    have h1 : F[i] ∈ toNum (dropna df0) := List.filter_subset' _ hmemF
    obtain ⟨p, hp, hpe⟩ := List.mem_map.mp h1
    have h2 : p ∈ df0 := List.filter_subset' df0 hp
    have h3 : (p.1, p.2.map fun c => c.getD 0) ∈ toNum df0 :=
      List.mem_map.mpr ⟨p, h2, rfl⟩
    rw [hpe] at h3
    exact h3
  · have hfst : (S[i]).1 = (F[i]).1 := by
      have h1 := hpoint.1
      simpa [List.get_eq_getElem, List.getElem_map] using h1
    have hmem : S[i] ∈ tgs := by
      simpa [List.get_eq_getElem] using hpoint.2
    rw [hgetS, ← hfst]
    exact hmem

/-- C3: after the cleaning step of each notebook — `dropna(axis=0)` on the
habitable-planets feature table, `fillna(0)` on the particle-ID feature
tables — the resulting feature table contains no missing (`NaN`) value in
any row or column, for every input table. -/
theorem cleaning_no_missing (df : DataFrame) :
    noMissing (dropna df) = true ∧ noMissing (fillna0 df) = true := by
  constructor
  · simp only [noMissing, dropna, List.all_eq_true]
    intro p hp
    exact List.all_eq_true.mp (List.mem_filter.mp hp).2
  · simp only [noMissing, fillna0, List.all_eq_true, List.mem_map]
    rintro p ⟨q, _, rfl⟩
    simp [List.all_eq_true]

end MLPhys

namespace MLPhys

/-- A fitted boosted ensemble (`AdaBoostRegressor` / `GradientBoostingRegressor`
in `boosting_decisions.ipynb`): a list of fitted boosting stages in order,
together with the library's rule for predicting from a list of stages.  The
fitting algorithm itself is external library code and is abstract here. -/
structure BoostedModel (α β : Type) where
  stages : List (α → β)
  aggregate : List (α → β) → α → β

/-- `list(model.staged_predict(X_test))`: the `i`-th element is the ensemble
prediction using only the first `i + 1` boosting stages. -/
def staged_predict {α β : Type} (m : BoostedModel α β) (x : α) : List β :=
  (List.range m.stages.length).map fun i => m.aggregate (m.stages.take (i + 1)) x

/-- The diagnostic loop
`[score(y_test, list(model.staged_predict(X_test))[i]) for i in range(n_estimators)]`
of `boosting_decisions.ipynb`, for an arbitrary score function (`r2_score`
or `spearmanr`).  `d` is a dummy prediction for the out-of-range reads the
notebook never performs (there `n_estimators` equals the number of fitted
stages). -/
def scoreCurve {α β γ : Type} (score : γ → β → ℚ) (ytest : γ)
    (m : BoostedModel α β) (xtest : α) (n : Nat) (d : β) : List ℚ :=
  (List.range n).map fun i => score ytest ((staged_predict m xtest).getD i d)

/-- C2: the boosting diagnostic loop produces exactly `n_estimators` curve
points, and the value at iteration `i` is the score of the test targets
against the `i`-th staged prediction, i.e. the prediction of the ensemble
truncated to its first `i + 1` boosting stages (for every score function,
when the model carries `n_estimators` fitted stages). -/
theorem staged_score_curve {α β γ : Type} (score : γ → β → ℚ) (y : γ)
    (m : BoostedModel α β) (x : α) (n : Nat) (d : β)
    (h : n = m.stages.length) :
    (scoreCurve score y m x n d).length = n ∧
    ∀ i < n, (scoreCurve score y m x n d).getD i 0
      = score y (m.aggregate (m.stages.take (i + 1)) x) := by
  constructor
  · simp [scoreCurve]
  · intro i hi
    have hi' : i < m.stages.length := h ▸ hi
    have h1 : (scoreCurve score y m x n d).getD i 0
        = score y ((staged_predict m x).getD i d) := by
      rw [List.getD_eq_getElem _ _ (by simpa [scoreCurve] using hi)]
      simp [scoreCurve]
    rw [h1]
    have h2 : (staged_predict m x).getD i d = m.aggregate (m.stages.take (i + 1)) x := by
      rw [List.getD_eq_getElem _ _ (by simpa [staged_predict] using hi')]
      simp [staged_predict]
    rw [h2]

/-- A concrete two-stage model over rationals: stage predictions `1` and `2`,
aggregation by summing stage outputs. -/
def modelC2 : BoostedModel ℚ ℚ :=
  ⟨[fun _ => 1, fun _ => 2], fun fs x => (fs.map fun f => f x).sum⟩

/-- Witness: the staged-score-curve property instantiated on the concrete
two-stage model with score `y - p`, its hypothesis discharged by `rfl`. -/
theorem staged_score_curve_witness :
    (2 = modelC2.stages.length) ∧
    ((scoreCurve (fun y p => y - p) 10 modelC2 0 2 0).length = 2 ∧
     ∀ i < 2, (scoreCurve (fun y p => y - p) 10 modelC2 0 2 0).getD i 0
       = (fun y p => y - p) 10 (modelC2.aggregate (modelC2.stages.take (i + 1)) 0)) :=
  ⟨rfl, staged_score_curve (fun y p => y - p) 10 modelC2 0 2 0 rfl⟩

end MLPhys

namespace MLPhys

/-- The searched grid `np.logspace(-6, 6, 13)` of `regularization.ipynb`:
the 13 powers of ten from `1e-6` to `1e6` (exact rationals; the floating
grid holds exactly these values). -/
def alphaGrid : List ℚ :=
  [1/1000000, 1/100000, 1/10000, 1/1000, 1/100, 1/10, 1,
   10, 100, 1000, 10000, 100000, 1000000]

/-- Running state of `np.argmin` over a list: `i` is the index of the next
element, `bi` the index of the best value seen so far, `bv` that value.
Only a strictly smaller value updates the best, so the first occurrence of
the minimum wins — `np.argmin` semantics. -/
def argminAux (i bi : Nat) (bv : ℚ) : List ℚ → Nat
  | [] => bi
  | x :: xs => if x < bv then argminAux (i + 1) i x xs else argminAux (i + 1) bi bv xs

/-- `np.argmin(MSE)`: index of the first occurrence of the minimum
(`0` on an empty list, which `np.argmin` rejects). -/
def argmin : List ℚ → Nat
  | [] => 0
  | x :: xs => argminAux 1 0 x xs

/-- `np.logspace(-6,6,13)[np.argmin(MSE)]`, the value printed as
`'Best alpha:'` by the manual Ridge tuning loop. -/
def bestAlpha (mse : List ℚ) : ℚ :=
  alphaGrid.getD (argmin mse) 0

/-- Invariant of the `argmin` accumulator: the result is either the running
best index (when nothing beats the running best value), or `i` plus the
offset of the first strict improvement that is minimal in the rest. -/
lemma argminAux_spec (l : List ℚ) : ∀ (i bi : Nat) (bv : ℚ),
    (argminAux i bi bv l = bi ∧ ∀ j < l.length, bv ≤ l.getD j 0) ∨
    (∃ j < l.length, argminAux i bi bv l = i + j ∧ l.getD j 0 < bv ∧
      (∀ j' < l.length, l.getD j 0 ≤ l.getD j' 0) ∧
      (∀ j' < j, l.getD j 0 < l.getD j' 0)) := by
  induction l with
  | nil =>
    intro i bi bv
    left
    exact ⟨rfl, by intro j hj; simp at hj⟩
  | cons x xs ih =>
    intro i bi bv
    by_cases hx : x < bv
    · have hstep : argminAux i bi bv (x :: xs) = argminAux (i + 1) i x xs := by
        simp [argminAux, hx]
      rcases ih (i + 1) i x with ⟨h1, h2⟩ | ⟨j, hj, h1, h2, h3, h4⟩
      · right
        refine ⟨0, by simp, by rw [hstep, h1]; omega, by simpa using hx, ?_, ?_⟩
        · intro j' hj'
          cases j' with
          | zero => simp
          | succ k =>
            have := h2 k (by simpa using hj')
            simpa using this
        · intro j' hj'
          omega
      · right
        refine ⟨j + 1, by simpa using hj, by rw [hstep, h1]; omega, ?_, ?_, ?_⟩
        · have : xs.getD j 0 < bv := lt_trans h2 hx
          simpa using this
        · intro j' hj'
          cases j' with
          | zero => simpa using h2.le
          | succ k =>
            have := h3 k (by simpa using hj')
            simpa using this
        · intro j' hj'
          cases j' with
          | zero => simpa using h2
          | succ k =>
            have := h4 k (by omega)
            simpa using this
    · have hstep : argminAux i bi bv (x :: xs) = argminAux (i + 1) bi bv xs := by
        simp [argminAux, hx]
      have hbx : bv ≤ x := not_lt.mp hx
      rcases ih (i + 1) bi bv with ⟨h1, h2⟩ | ⟨j, hj, h1, h2, h3, h4⟩
      · left
        refine ⟨by rw [hstep, h1], ?_⟩
        intro j' hj'
        cases j' with
        | zero => simpa using hbx
        | succ k =>
          have := h2 k (by simpa using hj')
          simpa using this
      · right
        refine ⟨j + 1, by simpa using hj, by rw [hstep, h1]; omega, ?_, ?_, ?_⟩
        · simpa using h2
        · intro j' hj'
          cases j' with
          | zero =>
            have : xs.getD j 0 ≤ x := le_trans (le_of_lt (lt_of_lt_of_le h2 hbx)) le_rfl
            simpa using this
          | succ k =>
            have := h3 k (by simpa using hj')
            simpa using this
        · intro j' hj'
          cases j' with
          | zero =>
            have : xs.getD j 0 < x := lt_of_lt_of_le h2 hbx
            simpa using this
          | succ k =>
            have := h4 k (by omega)
            simpa using this

/-- `argmin` returns an in-range index attaining the minimum, and no earlier
index attains it. -/
lemma argmin_spec (l : List ℚ) (hne : l ≠ []) :
    argmin l < l.length ∧
    (∀ j < l.length, l.getD (argmin l) 0 ≤ l.getD j 0) ∧
    (∀ j < l.length, l.getD j 0 = l.getD (argmin l) 0 → argmin l ≤ j) := by
  cases l with
  | nil => exact absurd rfl hne
  | cons x xs =>
    have hdef : argmin (x :: xs) = argminAux 1 0 x xs := rfl
    rcases argminAux_spec xs 1 0 x with ⟨h1, h2⟩ | ⟨j, hj, h1, h2, h3, h4⟩
    · rw [hdef, h1]
      refine ⟨by simp, ?_, ?_⟩
      · intro j' hj'
        cases j' with
        | zero => simp
        | succ k =>
          have := h2 k (by simpa using hj')
          simpa using this
      · intro j' _ _
        exact Nat.zero_le j'
    · have hr : argmin (x :: xs) = j + 1 := by rw [hdef, h1]; omega
      rw [hr]
      have hval : (x :: xs).getD (j + 1) 0 = xs.getD j 0 := by simp
      refine ⟨by simpa using hj, ?_, ?_⟩
      · intro j' hj'
        rw [hval]
        cases j' with
        | zero => simpa using h2.le
        | succ k =>
          have := h3 k (by simpa using hj')
          simpa using this
      · intro j' hj' heq
        rw [hval] at heq
        cases j' with
        | zero =>
          exfalso
          have : x = xs.getD j 0 := by simpa using heq
          exact absurd h2 (by rw [← this]; exact lt_irrefl x)
        | succ k =>
          by_contra hc
          have hkj : k < j := by omega
          have := h4 k hkj
          have hk : xs.getD k 0 = xs.getD j 0 := by simpa using heq
          rw [hk] at this
          exact lt_irrefl _ this

/-- C9: the value printed as `'Best alpha'` is the element of the grid
`np.logspace(-6,6,13)` at the index of the minimum of the accumulated mean
cross-validated MSE list; that index is in range, attains the minimal mean
MSE over the grid, and ties resolve to the earliest index — which is the
smallest alpha, the grid being strictly increasing. -/
theorem ridge_best_alpha (mse : List ℚ) (h : mse.length = 13) :
    bestAlpha mse = alphaGrid.getD (argmin mse) 0 ∧
    argmin mse < 13 ∧
    (∀ j < 13, mse.getD (argmin mse) 0 ≤ mse.getD j 0) ∧
    (∀ j < 13, mse.getD j 0 = mse.getD (argmin mse) 0 → argmin mse ≤ j) ∧
    List.Sorted (· < ·) alphaGrid := by
  have hne : mse ≠ [] := by
    intro he
    rw [he] at h
    simp at h
  obtain ⟨hb, hmin, hties⟩ := argmin_spec mse hne
  rw [h] at hb hmin hties
  refine ⟨rfl, hb, hmin, hties, ?_⟩
  simp only [alphaGrid, List.sorted_cons, List.mem_cons, List.not_mem_nil]
  norm_num

/-- A concrete 13-point MSE curve with its minimum at index 8. -/
def mseC9 : List ℚ := [9, 8, 7, 6, 5, 4, 3, 2, 1, 2, 3, 4, 5]

/-- Witness: the best-alpha property instantiated on a concrete 13-point MSE
list, its length hypothesis discharged by `rfl`. -/
theorem ridge_best_alpha_witness :
    mseC9.length = 13 ∧
    (bestAlpha mseC9 = alphaGrid.getD (argmin mseC9) 0 ∧
     argmin mseC9 < 13 ∧
     (∀ j < 13, mseC9.getD (argmin mseC9) 0 ≤ mseC9.getD j 0) ∧
     (∀ j < 13, mseC9.getD j 0 = mseC9.getD (argmin mseC9) 0 → argmin mseC9 ≤ j) ∧
     List.Sorted (· < ·) alphaGrid) :=
  ⟨rfl, ridge_best_alpha mseC9 rfl⟩

end MLPhys

namespace MLPhys

/-- The 27-row, one-column table `{1000, 1, 0 × 25}` on labels `0..26`.
In the full table only the z-score of `1000` reaches 5 in absolute value
(`√26 ≈ 5.099`); once `1000` is removed, the recomputed z-score of `1` in
the remaining 26 rows is exactly `5`, so a second pass removes it too. -/
def T27 : NumTable :=
  [(0, [1000]), (1, [1]), (2, [0]), (3, [0]), (4, [0]), (5, [0]), (6, [0]),
   (7, [0]), (8, [0]), (9, [0]), (10, [0]), (11, [0]), (12, [0]), (13, [0]),
   (14, [0]), (15, [0]), (16, [0]), (17, [0]), (18, [0]), (19, [0]),
   (20, [0]), (21, [0]), (22, [0]), (23, [0]), (24, [0]), (25, [0]), (26, [0])]

/-- `T27` after one pass of the z-score filter: the `1000` row is gone. -/
def T26 : NumTable :=
  [(1, [1]), (2, [0]), (3, [0]), (4, [0]), (5, [0]), (6, [0]),
   (7, [0]), (8, [0]), (9, [0]), (10, [0]), (11, [0]), (12, [0]), (13, [0]),
   (14, [0]), (15, [0]), (16, [0]), (17, [0]), (18, [0]), (19, [0]),
   (20, [0]), (21, [0]), (22, [0]), (23, [0]), (24, [0]), (25, [0]), (26, [0])]

/-- `T27` after two passes of the z-score filter: the `1` row is gone too. -/
def T25 : NumTable :=
  [(2, [0]), (3, [0]), (4, [0]), (5, [0]), (6, [0]),
   (7, [0]), (8, [0]), (9, [0]), (10, [0]), (11, [0]), (12, [0]), (13, [0]),
   (14, [0]), (15, [0]), (16, [0]), (17, [0]), (18, [0]), (19, [0]),
   (20, [0]), (21, [0]), (22, [0]), (23, [0]), (24, [0]), (25, [0]), (26, [0])]

/-- C10 counterexample: the z-score outlier filter is not idempotent.  On
`T27` the first pass removes the `1000` row; the second pass, recomputing
the statistics on the 26 remaining rows, also removes the `1` row (its
recomputed absolute z-score is exactly `5`, not `< 5`). -/
theorem zscore_filter_not_idempotent :
    ¬ (zscoreFilter (zscoreFilter T27) = zscoreFilter T27) := by
  have hmean : mean (colVals T27 0) = 1001 / 27 := by
    norm_num [colVals, T27, mean]
  have hvar : popVar (colVals T27 0) = 25998026 / 729 := by
    norm_num [popVar, colVals, T27, hmean, mean]
  have hmask : ∀ x : ℚ, rowMask T27 [x] = zKeepCell (colVals T27 0) x := by
    intro x
    have hr : List.range 1 = [0] := rfl
    simp [rowMask, hr]
  have hK0 : zKeepCell (colVals T27 0) 0 = true := by
    simp only [zKeepCell, hmean, hvar]
    norm_num
  have hK1 : zKeepCell (colVals T27 0) 1 = true := by
    simp only [zKeepCell, hmean, hvar]
    norm_num
  have hKB : zKeepCell (colVals T27 0) 1000 = false := by
    simp only [zKeepCell, hmean, hvar]
    norm_num
  have hfilter : zscoreFilter T27 = T26 := by
    show List.filter _
      [((0 : Nat), [(1000 : ℚ)]), (1, [1]), (2, [0]), (3, [0]), (4, [0]), (5, [0]), (6, [0]),
       (7, [0]), (8, [0]), (9, [0]), (10, [0]), (11, [0]), (12, [0]), (13, [0]),
       (14, [0]), (15, [0]), (16, [0]), (17, [0]), (18, [0]), (19, [0]),
       (20, [0]), (21, [0]), (22, [0]), (23, [0]), (24, [0]), (25, [0]), (26, [0])] = T26
    simp [List.filter_cons, hmask, hK0, hK1, hKB, T26]
  have hmean2 : mean (colVals T26 0) = 1 / 26 := by
    norm_num [colVals, T26, mean]
  have hvar2 : popVar (colVals T26 0) = 25 / 676 := by
    norm_num [popVar, colVals, T26, hmean2, mean]
  have hmask2 : ∀ x : ℚ, rowMask T26 [x] = zKeepCell (colVals T26 0) x := by
    intro x
    have hr : List.range 1 = [0] := rfl
    simp [rowMask, hr]
  have hK0' : zKeepCell (colVals T26 0) 0 = true := by
    simp only [zKeepCell, hmean2, hvar2]
    norm_num
  have hK1' : zKeepCell (colVals T26 0) 1 = false := by
    simp only [zKeepCell, hmean2, hvar2]
    norm_num
  have hfilter2 : zscoreFilter T26 = T25 := by
    show List.filter _
      [((1 : Nat), [(1 : ℚ)]), (2, [0]), (3, [0]), (4, [0]), (5, [0]), (6, [0]),
       (7, [0]), (8, [0]), (9, [0]), (10, [0]), (11, [0]), (12, [0]), (13, [0]),
       (14, [0]), (15, [0]), (16, [0]), (17, [0]), (18, [0]), (19, [0]),
       (20, [0]), (21, [0]), (22, [0]), (23, [0]), (24, [0]), (25, [0]), (26, [0])] = T25
    simp [List.filter_cons, hmask2, hK0', hK1', T25]
  intro h
  rw [hfilter, hfilter2] at h
  exact absurd (congrArg List.length h) (by decide)

/-- C10 amended: the z-score outlier filter is not idempotent in general
(see `T27`), but a second application only ever keeps a subset of the rows
kept by the first: the twice-filtered table is a sublist of the
once-filtered table, for every input table. -/
theorem zscore_filter_second_pass_sublist (df : NumTable) :
    (zscoreFilter (zscoreFilter df)).Sublist (zscoreFilter df) :=
  List.filter_sublist (zscoreFilter df)

end MLPhys

namespace MLPhys

/-- The library entry points invoked by the notebooks that accept an
`n_jobs` worker count. -/
inductive Callee where
  | read_csv
  | cross_validate
  | cross_val_predict
  | learning_curve
  | gridSearchCV
  | ridgeCV
  | lassoCV
  | fit
  deriving DecidableEq

/-- One library call transcribed from a notebook: its call site, the entry
point, and the `n_jobs` argument (`none` when not passed — the library
default `n_jobs=None`, meaning a single process). -/
structure LibCall where
  site : String
  callee : Callee
  njobs : Option Int

/-- Whether a call requests parallel workers: an explicit `n_jobs` other
than `1` (`4` means four worker processes, `-1` all processors). -/
def spawnsParallel (c : LibCall) : Bool :=
  match c.njobs with
  | none => false
  | some k => k != 1

/-- Every `n_jobs`-bearing library call of the three notebooks, in source
order.  `habitable_planets.ipynb`: `cross_validate`/`cross_val_predict`
(lines 970, 1004, 1038, 1565, 1728, 1837; no `n_jobs`), the
`plot_learning_curve` helper whose `learning_curve` call uses the helper's
default `n_jobs=-1` (definition line 1084, call site line 1178), and four
`GridSearchCV(..., n_jobs = 4)` calls (lines 1243, 1615, 1786, 1902).
`boosting_decisions.ipynb`: four `cross_val_predict` calls (lines 141, 204,
240, 265; no `n_jobs`).  `regularization.ipynb`: `cross_validate`
(line 176), `RidgeCV` (line 207) and `LassoCV` (line 371), none passing
`n_jobs`. -/
def libCalls : List LibCall :=
  [⟨"habitable_planets:970", .cross_validate, none⟩,
   ⟨"habitable_planets:1004", .cross_val_predict, none⟩,
   ⟨"habitable_planets:1038", .cross_validate, none⟩,
   ⟨"habitable_planets:1178", .learning_curve, some (-1)⟩,
   ⟨"habitable_planets:1243", .gridSearchCV, some 4⟩,
   ⟨"habitable_planets:1565", .cross_validate, none⟩,
   ⟨"habitable_planets:1615", .gridSearchCV, some 4⟩,
   ⟨"habitable_planets:1728", .cross_validate, none⟩,
   ⟨"habitable_planets:1786", .gridSearchCV, some 4⟩,
   ⟨"habitable_planets:1837", .cross_validate, none⟩,
   ⟨"habitable_planets:1902", .gridSearchCV, some 4⟩,
   ⟨"boosting_decisions:141", .cross_val_predict, none⟩,
   ⟨"boosting_decisions:204", .cross_val_predict, none⟩,
   ⟨"boosting_decisions:240", .cross_val_predict, none⟩,
   ⟨"boosting_decisions:265", .cross_val_predict, none⟩,
   ⟨"regularization:176", .cross_validate, none⟩,
   ⟨"regularization:207", .ridgeCV, none⟩,
   ⟨"regularization:371", .lassoCV, none⟩]

/-- C5 counterexample: it is not true that no operation spawns concurrent or
parallel work — the transcribed call list contains calls requesting parallel
workers (`GridSearchCV` with `n_jobs=4`, `learning_curve` with
`n_jobs=-1`). -/
theorem not_all_calls_sequential :
    ¬ (∀ c ∈ libCalls, spawnsParallel c = false) := by
  decide

/-- C5 amended: execution is single-threaded and synchronous except for the
grid-search and learning-curve invocations: the calls requesting parallel
workers are exactly the one `learning_curve` call (default `n_jobs=-1`) and
the four `GridSearchCV(..., n_jobs=4)` calls; every other transcribed
library call runs in a single process. -/
theorem parallel_calls_exactly_grid_search_and_learning_curve :
    (libCalls.filter spawnsParallel).map (fun c => c.callee)
      = [.learning_curve, .gridSearchCV, .gridSearchCV, .gridSearchCV, .gridSearchCV] ∧
    (libCalls.filter spawnsParallel).map (fun c => c.njobs)
      = [some (-1), some 4, some 4, some 4, some 4] := by
  constructor <;> rfl

/-- One RNG-consuming operation transcribed from a notebook: its call site
and its `random_state` argument (`none` when not passed, in which case the
library draws from NumPy's global RNG). -/
structure RandomizedOp where
  site : String
  randomState : Option Nat

/-- The randomness profile of one notebook: whether it seeds the global
NumPy RNG (`np.random.seed`), and its RNG-consuming operations. -/
structure RandomProfile where
  globalSeed : Option Nat
  ops : List RandomizedOp

/-- What determines one operation's random stream in one run.  A fixed
`random_state` determines it outright; otherwise the global RNG does, which
is determined by `np.random.seed` when called, and by fresh OS entropy —
different on every run, represented by the `entropy` argument — when not. -/
def opDraw (g : Option Nat) (entropy : Nat) (o : RandomizedOp) : Nat :=
  match o.randomState with
  | some s => s
  | none =>
    match g with
    | some s => s
    | none => entropy

/-- The random streams a whole notebook run consumes, as a function of the
run's ambient entropy: two runs are identical iff these agree for any two
entropy values. -/
def runDraws (nb : RandomProfile) (entropy : Nat) : List Nat :=
  nb.ops.map (opDraw nb.globalSeed entropy)

/-- `regularization.ipynb`: `np.random.seed(16)` (line 78); the
`np.random.poisson` draw (line 86) uses the global RNG; all three `KFold`
splitters pass `random_state=1` (lines 176, 207, 371). -/
def regularizationRandom : RandomProfile :=
  { globalSeed := some 16,
    ops := [⟨"np.random.poisson:86", none⟩,
            ⟨"KFold:176", some 1⟩,
            ⟨"KFold:207", some 1⟩,
            ⟨"KFold:371", some 1⟩] }

/-- `boosting_decisions.ipynb`: no global seed (`np.random.seed` never
appears).  Seeded consumers: `KFold(random_state=10)` (lines 141, 204, 240,
265), the `AdaBoostRegressor`/`GradientBoostingRegressor` constructions
passing `random_state=rng` with `rng = np.random.RandomState(1)` (lines 303,
378, 762), and `train_test_split(random_state=42)` (lines 480, 557, 590,
692).  Unseeded consumers: the `AdaBoostRegressor` fits with no
`random_state` (lines 132, 203, 239, 264, 491, 553, 586, 624, 688) and the
`GradientBoostingRegressor` fit with no `random_state` (line 857) — AdaBoost
draws bootstrap samples from the RNG at every boosting iteration, so these
fits consume the never-seeded global NumPy RNG. -/
def boostingRandom : RandomProfile :=
  { globalSeed := none,
    ops := [⟨"AdaBoostRegressor:132", none⟩,
            ⟨"KFold:141", some 10⟩,
            ⟨"AdaBoostRegressor:203", none⟩,
            ⟨"KFold:204", some 10⟩,
            ⟨"AdaBoostRegressor:239", none⟩,
            ⟨"KFold:240", some 10⟩,
            ⟨"AdaBoostRegressor:264", none⟩,
            ⟨"KFold:265", some 10⟩,
            ⟨"RandomState:303", some 1⟩, ⟨"RandomState:378", some 1⟩,
            ⟨"train_test_split:480", some 42⟩,
            ⟨"AdaBoostRegressor:491", none⟩,
            ⟨"AdaBoostRegressor:553", none⟩,
            ⟨"train_test_split:557", some 42⟩,
            ⟨"AdaBoostRegressor:586", none⟩,
            ⟨"train_test_split:590", some 42⟩,
            ⟨"AdaBoostRegressor:624", none⟩,
            ⟨"AdaBoostRegressor:688", none⟩,
            ⟨"train_test_split:692", some 42⟩,
            ⟨"RandomState:762", some 1⟩,
            ⟨"GradientBoostingRegressor:857", none⟩] }

/-- `habitable_planets.ipynb`: no global seed; one seeded splitter
(`StratifiedKFold(..., random_state=101)`, line 961), but the
`KFold(shuffle=True)` of the learning-curve call (line 1178) and the four
`StratifiedKFold(n_splits=5, shuffle=True)` splitters handed to
`GridSearchCV` (lines 1242, 1614, 1785, 1901) pass no `random_state`. -/
def habitableRandom : RandomProfile :=
  { globalSeed := none,
    ops := [⟨"StratifiedKFold:961", some 101⟩,
            ⟨"KFold:1178", none⟩,
            ⟨"StratifiedKFold:1242", none⟩,
            ⟨"StratifiedKFold:1614", none⟩,
            ⟨"StratifiedKFold:1785", none⟩,
            ⟨"StratifiedKFold:1901", none⟩] }

/-- C6 counterexample: the habitable-planets pipeline is not two-run
deterministic — its unseeded shuffled cross-validation splitters consume
fresh global-RNG entropy, so two runs with different ambient entropy draw
different streams (no fixed seed exists for them: the notebook never calls
`np.random.seed`). -/
theorem habitable_runs_differ :
    runDraws habitableRandom 0 ≠ runDraws habitableRandom 1 := by
  decide

/-- C6 amended: two-run determinism holds only for `regularization.ipynb`,
which seeds the global RNG (`np.random.seed(16)`) and passes `random_state`
to every splitter.  It fails for `boosting_decisions.ipynb` — its
`AdaBoostRegressor` fits at lines 132, 203, 239, 264, 491, 553, 586, 624,
688 and its `GradientBoostingRegressor` fit at line 857 pass no
`random_state` and draw from the never-seeded global RNG — and for
`habitable_planets.ipynb`, whose shuffled CV splitters pass no
`random_state`. -/
theorem determinism_per_notebook :
    (∀ e₁ e₂ : Nat, runDraws regularizationRandom e₁ = runDraws regularizationRandom e₂) ∧
    ¬ (∀ e₁ e₂ : Nat, runDraws boostingRandom e₁ = runDraws boostingRandom e₂) ∧
    ¬ (∀ e₁ e₂ : Nat, runDraws habitableRandom e₁ = runDraws habitableRandom e₂) := by
  refine ⟨fun e₁ e₂ => rfl, ?_, ?_⟩
  · intro h
    exact absurd (h 0 1) (by decide)
  · intro h
    exact absurd (h 0 1) (by decide)

end MLPhys

namespace MLPhys

/-- Execution of one straight-line notebook: cells run in order on the
in-process state, each either producing a new state or raising a library
error.  No notebook contains a `try`/`except`, a retry, or any other
handler, so the run is the plain sequential composition of the cells. -/
def runCells {σ ε : Type} (cells : List (σ → Except ε σ)) (s : σ) : Except ε σ :=
  cells.foldl (fun acc c => acc.bind c) (Except.ok s)

/-- A raised error absorbs the rest of a straight-line run. -/
lemma foldl_error_absorb {σ ε : Type} (e : ε) :
    ∀ cells : List (σ → Except ε σ),
      cells.foldl (fun acc c => acc.bind c) (Except.error e) = Except.error e
  | [] => rfl
  | _ :: cells => foldl_error_absorb e cells

/-- C7: no notebook operation catches, retries, or recovers from a failure:
when the cells before `c` run to state `s'` and `c` raises error `e`
(whatever the underlying library raises), the whole run ends with exactly
that error `e`, unchanged, whatever cells follow. -/
theorem errors_propagate_unchanged {σ ε : Type}
    (pre post : List (σ → Except ε σ)) (c : σ → Except ε σ) (s s' : σ) (e : ε)
    (h1 : runCells pre s = Except.ok s') (h2 : c s' = Except.error e) :
    runCells (pre ++ c :: post) s = Except.error e := by
  induction pre generalizing s with
  | nil =>
    have hs : s = s' := by
      simpa [runCells] using h1
    subst hs
    show List.foldl _ ((Except.ok s).bind c) post = Except.error e
    rw [show (Except.ok s).bind c = c s from rfl, h2]
    exact foldl_error_absorb e post
  | cons d pre ih =>
    have hstep : runCells (d :: pre) s
        = List.foldl (fun acc c => acc.bind c) (d s) pre := rfl
    cases hd : d s with
    | error e' =>
      rw [hstep, hd, foldl_error_absorb] at h1
      exact absurd h1 (by simp)
    | ok t =>
      have h1' : runCells pre t = Except.ok s' := by
        rw [hstep, hd] at h1
        exact h1
      have : runCells ((d :: pre) ++ c :: post) s
          = List.foldl (fun acc c => acc.bind c) (d s) (pre ++ c :: post) := rfl
      rw [this, hd]
      exact ih t h1'

/-- The cells before the failing one in the concrete witness run: one cell
incrementing the state. -/
def preC7 : List (Nat → Except String Nat) := [fun n => Except.ok (n + 1)]

/-- The failing cell of the concrete witness run: a cell whose library call
raises (e.g. a failed CSV read). -/
def cFailC7 : Nat → Except String Nat := fun _ => Except.error "FileNotFoundError"

/-- Cells after the failing one in the concrete witness run. -/
def postC7 : List (Nat → Except String Nat) := [fun n => Except.ok n]

/-- Witness: error propagation instantiated on a concrete three-cell run,
both hypotheses discharged by `rfl`. -/
theorem errors_propagate_unchanged_witness :
    runCells preC7 0 = Except.ok 1 ∧
    cFailC7 1 = Except.error "FileNotFoundError" ∧
    runCells (preC7 ++ cFailC7 :: postC7) 0 = Except.error "FileNotFoundError" :=
  ⟨rfl, rfl, errors_propagate_unchanged preC7 postC7 cFailC7 0 1 "FileNotFoundError" rfl rfl⟩

/-- Direction of a file-system effect. -/
inductive FileMode where
  | read
  | write
  deriving DecidableEq

/-- One file-system effect transcribed from a notebook: the path of the
source literal, split into components relative to the notebook's working
directory, and the file extension. -/
structure FileEffect where
  notebook : String
  path : List String
  ext : String
  mode : FileMode

/-- Every file-system effect of the three notebooks (commented-out
`plt.savefig` lines excluded): the CSV/text reads
`pd.read_csv('../data/phl_exoplanet_catalog.csv')` (habitable line 83),
`pd.read_csv('../data/ParticleID_features.csv')` (line 643),
`np.genfromtxt('../data/ParticleID_labels.txt')` (line 670),
`pd.read_csv('../data/sel_features.csv')` and
`pd.read_csv('../data/sel_target.csv')` (boosting lines 89, 98), and the
plot writes `plt.savefig('AdaB_performance.png')` (line 646) and
`plt.savefig('GBR_performance.png')` (line 879).  `regularization.ipynb`
generates its data in memory and performs no file I/O. -/
def fileEffects : List FileEffect :=
  [⟨"habitable_planets", ["..", "data", "phl_exoplanet_catalog.csv"], "csv", .read⟩,
   ⟨"habitable_planets", ["..", "data", "ParticleID_features.csv"], "csv", .read⟩,
   ⟨"habitable_planets", ["..", "data", "ParticleID_labels.txt"], "txt", .read⟩,
   ⟨"boosting_decisions", ["..", "data", "sel_features.csv"], "csv", .read⟩,
   ⟨"boosting_decisions", ["..", "data", "sel_target.csv"], "csv", .read⟩,
   ⟨"boosting_decisions", ["AdaB_performance.png"], "png", .write⟩,
   ⟨"boosting_decisions", ["GBR_performance.png"], "png", .write⟩]

/-- A read of a CSV/text file at a fixed relative path under `../data/`. -/
def isDataRead (e : FileEffect) : Bool :=
  (e.mode == FileMode.read) &&
    (match e.path with
     | [a, b, _] => a == ".." && b == "data"
     | _ => false) &&
    (e.ext == "csv" || e.ext == "txt")

/-- A write of a PNG image directly into the working directory. -/
def isPngWrite (e : FileEffect) : Bool :=
  (e.mode == FileMode.write) && e.path.length == 1 && (e.ext == "png")

/-- C8: every file-system effect of the notebooks is either a read of a
CSV/text file at a fixed relative path under `../data/` or a write of a PNG
image into the working directory; no written path coincides with any read
path, so the input data files are never modified. -/
theorem file_effects_profile :
    (∀ e ∈ fileEffects, isDataRead e || isPngWrite e) ∧
    (∀ e ∈ fileEffects, e.mode = FileMode.write →
      ∀ r ∈ fileEffects, r.mode = FileMode.read → e.path ≠ r.path) := by
  decide

end MLPhys

namespace MLPhys

/-- A concrete original dataset for the alignment witness: three rows, one
of which (`label 2`) has a missing value and is removed by `dropna`. -/
def df0C4 : DataFrame := [(0, [some 0]), (1, [some 1]), (2, [none])]

/-- Targets for the alignment witness, on the same labels `0, 1, 2`. -/
def tgsC4 : Series := [(0, 5), (1, 7), (2, 9)]

/-- Witness: the pipeline row-alignment property instantiated on the
concrete three-row dataset, its hypothesis discharged by an explicit
term (surviving labels come from `df0C4`, whose label set is that of
`tgsC4`). -/
theorem pipeline_row_alignment_witness :
    (∀ i ∈ (zscoreFilter (toNum (dropna df0C4))).map Prod.fst, i ∈ tgsC4.map Prod.fst) ∧
    ((resetIndexT (zscoreFilter (toNum (dropna df0C4)))).length
      = (resetIndexS (selectByIndex tgsC4
          ((zscoreFilter (toNum (dropna df0C4))).map Prod.fst))).length ∧
    ∀ i < (resetIndexT (zscoreFilter (toNum (dropna df0C4)))).length,
      ((resetIndexT (zscoreFilter (toNum (dropna df0C4)))).getD i (0, [])).1 = i ∧
      ((resetIndexS (selectByIndex tgsC4
          ((zscoreFilter (toNum (dropna df0C4))).map Prod.fst))).getD i (0, 0)).1 = i ∧
      ∃ k : Nat,
        (k, ((resetIndexT (zscoreFilter (toNum (dropna df0C4)))).getD i (0, [])).2)
            ∈ toNum df0C4 ∧
        (k, ((resetIndexS (selectByIndex tgsC4
            ((zscoreFilter (toNum (dropna df0C4))).map Prod.fst))).getD i (0, 0)).2)
            ∈ tgsC4) :=
  have h : ∀ i ∈ (zscoreFilter (toNum (dropna df0C4))).map Prod.fst,
      i ∈ tgsC4.map Prod.fst := by
    intro i hi
    obtain ⟨q, hq, rfl⟩ := List.mem_map.mp hi
    have h1 : q ∈ toNum (dropna df0C4) := List.filter_subset' _ hq
    obtain ⟨p, hp, rfl⟩ := List.mem_map.mp h1
    have h2 : p ∈ df0C4 := List.filter_subset' df0C4 hp
    have h3 : p.1 ∈ df0C4.map Prod.fst := List.mem_map.mpr ⟨p, h2, rfl⟩
    simpa [tgsC4] using by simpa [df0C4] using h3
  ⟨h, pipeline_row_alignment df0C4 tgsC4 h⟩

end MLPhys
